import Mathlib

/-!
Verification of the interrupt/shutdown notifier in src/utils/signal.go.

The file is shallowly embedded: Go channels become a record of capacity,
FIFO buffer and closed flag; each listener goroutine becomes a step
function on an explicit state, driven by the sequence of events it
receives; the go-ethereum broadcast feed (a library dependency, not part
of this repository) is modelled from the spec's description of its
semantics.
-/

set_option maxRecDepth 2000

namespace SignalSpec

/-- An OS signal value, as in the os.Signal interface.  The default
subscription in the source is the single platform interrupt signal
os.Interrupt; other signals carry their name. -/
inductive OsSignal where
  | interrupt
  | other (name : String)
deriving DecidableEq, Repr

/-- The String method of an os.Signal, used in the log lines. -/
def OsSignal.sigString : OsSignal → String
  | .interrupt => "interrupt"
  | .other n => n

/-- A Go channel: a bounded FIFO buffer plus a closed flag.  An
unbuffered channel has capacity 0. -/
structure GoChan (α : Type) where
  capacity : Nat
  buffer : List α
  closed : Bool
deriving DecidableEq, Repr

/-- make(chan α, cap): empty buffer, not closed. -/
def newChan (α : Type) (cap : Nat) : GoChan α :=
  { capacity := cap, buffer := [], closed := false }

/-- Non-blocking receive, as in a select with a default branch: a
buffered value is taken first; a closed empty channel yields the zero
value immediately; otherwise the default branch is taken (result none). -/
def GoChan.tryRecv {α : Type} (ch : GoChan α) : Option (Option α) × GoChan α :=
  match ch.buffer with
  | v :: rest => (some (some v), { ch with buffer := rest })
  | [] => if ch.closed then (some none, ch) else (none, ch)

/-- Non-blocking send, as the os/signal package performs on a notify
channel: the value enters the buffer if there is room, and is dropped
otherwise. -/
def GoChan.trySend {α : Type} (ch : GoChan α) (v : α) : Bool × GoChan α :=
  if ch.buffer.length < ch.capacity then
    (true, { ch with buffer := ch.buffer ++ [v] })
  else
    (false, ch)

/-- close(ch). -/
def GoChan.close {α : Type} (ch : GoChan α) : GoChan α :=
  { ch with closed := true }

/-- src/utils/signal.go line 13: the shared shutdown-request channel,
made with make(chan struct) and no capacity argument, hence unbuffered. -/
def shutdownRequestChannel : GoChan Unit := newChan Unit 0

/-- src/utils/signal.go line 17: the default signal subscription set,
the single platform interrupt signal. -/
def interruptSignals : List OsSignal := [OsSignal.interrupt]

/-- The notify channel each listener creates: make(chan os.Signal, 1),
lines 25 and 76. -/
def newInterruptChannel : GoChan OsSignal := newChan OsSignal 1

/-- Deliver a sequence of values to a channel by non-blocking sends, as
the os/signal package does while the listener is away from its receive. -/
def deliverAll {α : Type} (ch : GoChan α) (vs : List α) : GoChan α :=
  vs.foldl (fun c v => (c.trySend v).2) ch

/-- An event a listener goroutine can receive in its select: an OS
signal from its notify channel, or a shutdown request from
shutdownRequestChannel. -/
inductive Event where
  | osSignal (sig : OsSignal)
  | shutdownRequest
deriving DecidableEq, Repr

/-- The log.Warn lines of src/utils/signal.go. -/
inductive LogEntry where
  | receivedSignal (sig : String)
  | receivedShutdownRequest
  | receivedSignalRepeated (sig : String)
  | receivedShutdownRequestRepeated
deriving DecidableEq, Repr

/-- The log line of the first select (lines 31-35 and 83-87). -/
def firstLog : Event → LogEntry
  | .osSignal sig => .receivedSignal sig.sigString
  | .shutdownRequest => .receivedShutdownRequest

/-- The log line of the repeat loop (lines 42-50 and 93-101). -/
def repeatLog : Event → LogEntry
  | .osSignal sig => .receivedSignalRepeated sig.sigString
  | .shutdownRequest => .receivedShutdownRequestRepeated

/-- Position of the listener goroutine in its code: before the first
select, or inside the unbounded repeat loop. -/
inductive Phase where
  | waitingFirst
  | loopRepeat
deriving DecidableEq, Repr

/-- State of the channel-based listener: its code position and the
handle channel c it returned. -/
structure ListenerState where
  phase : Phase
  handle : GoChan Unit
deriving DecidableEq, Repr

/-- src/utils/signal.go lines 22-54, InterruptListener: makes the
unbuffered handle channel c and starts the goroutine before its first
select. -/
def InterruptListener : ListenerState :=
  { phase := Phase.waitingFirst, handle := newChan Unit 0 }

/-- One iteration of the listener goroutine on a received event: the
first event closes the handle and logs which source fired (lines 30-37);
every later event only logs a repeated message (lines 42-50). -/
def interruptListenerStep (st : ListenerState) (e : Event) : ListenerState × LogEntry :=
  match st.phase with
  | .waitingFirst => ({ phase := Phase.loopRepeat, handle := st.handle.close }, firstLog e)
  | .loopRepeat => (st, repeatLog e)

/-- Run the listener over a sequence of received events. -/
def interruptListenerRun (st : ListenerState) (es : List Event) : ListenerState :=
  es.foldl (fun s e => (interruptListenerStep s e).1) st

/-- The handle channel after the listener has received the events es. -/
def handleAfter (es : List Event) : GoChan Unit :=
  (interruptListenerRun InterruptListener es).handle

/-- The closed flag of the handle after every prefix of the event
sequence, the initial state included. -/
def closedStates (es : List Event) : List Bool :=
  (es.scanl (fun s e => (interruptListenerStep s e).1) InterruptListener).map
    (fun s => s.handle.closed)

/-- Number of open-to-closed transitions along a trace of closed flags. -/
def riseCount : List Bool → Nat
  | [] => 0
  | [_] => 0
  | a :: b :: rest => (if !a && b then 1 else 0) + riseCount (b :: rest)

/-- src/utils/signal.go lines 59-67, InterruptRequested: a non-blocking
receive on the handle; returns true when the receive would complete.
Also returns the channel afterwards, to reason about consumption. -/
def InterruptRequested (interrupted : GoChan Unit) : Bool × GoChan Unit :=
  match interrupted.tryRecv with
  | (some _, ch) => (true, ch)
  | (none, ch) => (false, ch)

/- ### Basic run lemmas -/

theorem step_loopRepeat (st : ListenerState) (e : Event) (h : st.phase = Phase.loopRepeat) :
    interruptListenerStep st e = (st, repeatLog e) := by
  unfold interruptListenerStep
  rw [h]

theorem run_loopRepeat (es : List Event) (st : ListenerState) (h : st.phase = Phase.loopRepeat) :
    interruptListenerRun st es = st := by
  induction es with
  | nil => rfl
  | cons e es ih =>
    unfold interruptListenerRun at ih ⊢
    simp only [List.foldl_cons, step_loopRepeat st e h, ih]

theorem scanl_loopRepeat (es : List Event) (st : ListenerState)
    (h : st.phase = Phase.loopRepeat) :
    es.scanl (fun s e => (interruptListenerStep s e).1) st =
      List.replicate (es.length + 1) st := by
  induction es with
  | nil => rfl
  | cons e es ih =>
    simp only [List.scanl, step_loopRepeat st e h, List.length_cons, List.replicate_succ]
    exact congrArg _ ih

theorem closedStates_eq (es : List Event) :
    closedStates es = false :: List.replicate es.length true := by
  cases es with
  | nil => rfl
  | cons e es =>
    unfold closedStates
    have h1 : (interruptListenerStep InterruptListener e).1 =
        { phase := Phase.loopRepeat, handle := (newChan Unit 0).close } := rfl
    simp only [List.scanl, h1]
    rw [scanl_loopRepeat es { phase := Phase.loopRepeat, handle := (newChan Unit 0).close } rfl]
    simp only [List.map_cons, List.map_replicate, List.length_cons]
    rfl

theorem riseCount_true_replicate (n : Nat) :
    riseCount (true :: List.replicate n true) = 0 := by
  induction n with
  | zero => rfl
  | succ n ih =>
    rw [List.replicate_succ]
    show 0 + riseCount (true :: List.replicate n true) = 0
    rw [ih]

theorem riseCount_closedTrace (n : Nat) :
    riseCount (false :: List.replicate n true) = min n 1 := by
  cases n with
  | zero => rfl
  | succ n =>
    rw [List.replicate_succ]
    show 1 + riseCount (true :: List.replicate n true) = min (n + 1) 1
    rw [riseCount_true_replicate n]
    omega

theorem handleAfter_nil : handleAfter [] = newChan Unit 0 := rfl

theorem handleAfter_closed (es : List Event) :
    (handleAfter es).closed = !es.isEmpty := by
  cases es with
  | nil => rfl
  | cons e es =>
    unfold handleAfter interruptListenerRun
    simp only [List.foldl_cons]
    have h1 : (interruptListenerStep InterruptListener e).1 =
        { phase := Phase.loopRepeat, handle := (newChan Unit 0).close } := rfl
    rw [h1]
    have h2 := run_loopRepeat es { phase := Phase.loopRepeat, handle := (newChan Unit 0).close } rfl
    unfold interruptListenerRun at h2
    rw [h2]
    rfl

theorem handleAfter_buffer (es : List Event) : (handleAfter es).buffer = [] := by
  cases es with
  | nil => rfl
  | cons e es =>
    unfold handleAfter interruptListenerRun
    simp only [List.foldl_cons]
    have h1 : (interruptListenerStep InterruptListener e).1 =
        { phase := Phase.loopRepeat, handle := (newChan Unit 0).close } := rfl
    rw [h1]
    have h2 := run_loopRepeat es { phase := Phase.loopRepeat, handle := (newChan Unit 0).close } rfl
    unfold interruptListenerRun at h2
    rw [h2]
    rfl

/- ### Broadcast feed model -/

/-- Modelled from the spec: the broadcast feed primitive (go-ethereum
event.Feed, a library dependency, not part of this repository).  Each
Send delivers one zero-payload event to every subscriber registered at
that moment; subscribers registering later receive nothing retroactively
(no replay).  A subscriber is a pair of an identifier and the number of
deliveries it has received so far. -/
structure Feed where
  subs : List (Nat × Nat)
deriving DecidableEq, Repr

/-- src/utils/signal.go line 72: the shared feed, initially with no
subscribers. -/
def InterruptFeed : Feed := { subs := [] }

/-- Register a new subscriber on the feed, with no deliveries yet. -/
def Feed.subscribe (f : Feed) (id : Nat) : Feed :=
  { subs := f.subs ++ [(id, 0)] }

/-- Send: one delivery to every currently registered subscriber. -/
def Feed.send (f : Feed) : Feed :=
  { subs := f.subs.map (fun p => (p.1, p.2 + 1)) }

/-- Total number of deliveries the subscriber id has received. -/
def Feed.deliveredTo (f : Feed) (id : Nat) : Nat :=
  ((f.subs.filter (fun p => p.1 == id)).map (fun p => p.2)).sum

/-- An action visible to the feed-variant listener system: a subscriber
registering on the feed, or an event received by the listener goroutine. -/
inductive FeedAction where
  | subscribe (id : Nat)
  | event (e : Event)
deriving DecidableEq, Repr

/-- State of the broadcast-feed listener together with the shared feed:
the goroutine position, the feed, and how many Send calls have run. -/
structure FeedListenerState where
  phase : Phase
  feed : Feed
  sendCount : Nat
deriving DecidableEq, Repr

/-- src/utils/signal.go lines 74-103, StartInterrupteListener: the state
just after the call, goroutine before its first select, shared feed
empty, nothing published. -/
def StartInterrupteListener : FeedListenerState :=
  { phase := Phase.waitingFirst, feed := InterruptFeed, sendCount := 0 }

/-- One step of the feed-listener system.  A subscribe only touches the
feed.  The first event received sends once on the feed and logs which
source fired (lines 82-89); every later event only logs a repeated
message (lines 93-101). -/
def startInterrupteListenerStep (st : FeedListenerState) (a : FeedAction) :
    FeedListenerState × Option LogEntry :=
  match a with
  | .subscribe id => ({ st with feed := st.feed.subscribe id }, none)
  | .event e =>
    match st.phase with
    | .waitingFirst =>
      ({ phase := Phase.loopRepeat, feed := st.feed.send, sendCount := st.sendCount + 1 },
        some (firstLog e))
    | .loopRepeat => (st, some (repeatLog e))

/-- Run the feed-listener system from a state over a list of actions. -/
def feedRunFrom (st : FeedListenerState) (acts : List FeedAction) : FeedListenerState :=
  acts.foldl (fun s a => (startInterrupteListenerStep s a).1) st

/-- Run from the state StartInterrupteListener leaves behind. -/
def feedRun (acts : List FeedAction) : FeedListenerState :=
  feedRunFrom StartInterrupteListener acts

/-- Number of listener events among the actions. -/
def eventCount (acts : List FeedAction) : Nat :=
  acts.countP (fun a => match a with | .event _ => true | _ => false)

/-- Number of times the subscriber id registers among the actions. -/
def subCount (acts : List FeedAction) (id : Nat) : Nat :=
  acts.countP (fun a => match a with | .subscribe i => i == id | _ => false)

/-- The subscriber entries the actions create, each with delivery count c. -/
def subsOf (acts : List FeedAction) (c : Nat) : List (Nat × Nat) :=
  acts.filterMap (fun a => match a with
    | .subscribe id => some (id, c)
    | _ => none)

/- ### Feed run lemmas -/

theorem feedRunFrom_append (st : FeedListenerState) (xs ys : List FeedAction) :
    feedRunFrom st (xs ++ ys) = feedRunFrom (feedRunFrom st xs) ys := by
  unfold feedRunFrom
  exact List.foldl_append _ _ xs ys

theorem feedRunFrom_cons (st : FeedListenerState) (a : FeedAction) (acts : List FeedAction) :
    feedRunFrom st (a :: acts) = feedRunFrom (startInterrupteListenerStep st a).1 acts := rfl

theorem feedRunFrom_no_events (acts : List FeedAction) (ph : Phase) (s : List (Nat × Nat))
    (sc : Nat) (h : eventCount acts = 0) :
    feedRunFrom { phase := ph, feed := { subs := s }, sendCount := sc } acts =
      { phase := ph, feed := { subs := s ++ subsOf acts 0 }, sendCount := sc } := by
  induction acts generalizing s with
  | nil => simp [feedRunFrom, subsOf]
  | cons a acts ih =>
    cases a with
    | subscribe id =>
      have h' : eventCount acts = 0 := by
        unfold eventCount at h ⊢
        simpa [List.countP_cons] using h
      rw [feedRunFrom_cons]
      have hstep : (startInterrupteListenerStep
          { phase := ph, feed := { subs := s }, sendCount := sc } (FeedAction.subscribe id)).1 =
          { phase := ph, feed := { subs := s ++ [(id, 0)] }, sendCount := sc } := rfl
      rw [hstep, ih (s ++ [(id, 0)]) h']
      simp [subsOf, List.filterMap_cons, List.append_assoc]
    | event e =>
      exfalso
      unfold eventCount at h
      simp [List.countP_cons] at h

theorem feedRunFrom_loopRepeat (acts : List FeedAction) (s : List (Nat × Nat)) (sc : Nat) :
    feedRunFrom { phase := Phase.loopRepeat, feed := { subs := s }, sendCount := sc } acts =
      { phase := Phase.loopRepeat, feed := { subs := s ++ subsOf acts 0 }, sendCount := sc } := by
  induction acts generalizing s with
  | nil => simp [feedRunFrom, subsOf]
  | cons a acts ih =>
    cases a with
    | subscribe id =>
      rw [feedRunFrom_cons]
      have hstep : (startInterrupteListenerStep
          { phase := Phase.loopRepeat, feed := { subs := s }, sendCount := sc }
          (FeedAction.subscribe id)).1 =
          { phase := Phase.loopRepeat, feed := { subs := s ++ [(id, 0)] }, sendCount := sc } := rfl
      rw [hstep, ih (s ++ [(id, 0)])]
      simp [subsOf, List.filterMap_cons, List.append_assoc]
    | event e =>
      rw [feedRunFrom_cons]
      have hstep : (startInterrupteListenerStep
          { phase := Phase.loopRepeat, feed := { subs := s }, sendCount := sc }
          (FeedAction.event e)).1 =
          { phase := Phase.loopRepeat, feed := { subs := s }, sendCount := sc } := rfl
      rw [hstep, ih s]
      simp [subsOf, List.filterMap_cons]

theorem deliveredTo_append (xs ys : List (Nat × Nat)) (id : Nat) :
    Feed.deliveredTo { subs := xs ++ ys } id =
      Feed.deliveredTo { subs := xs } id + Feed.deliveredTo { subs := ys } id := by
  unfold Feed.deliveredTo
  simp [List.filter_append]

/- ### The shared shutdown-request trigger, with Go channel send/receive
semantics (a send on an unbuffered channel rendezvouses with a receiver
or suspends the sender; nothing is ever stored in the buffer). -/

/-- An operation on the shared trigger: a subsystem raising a shutdown
request (a send on shutdownRequestChannel), or a listener arriving at a
receive on it. -/
inductive TrigOp where
  | raise
  | receive
deriving DecidableEq, Repr

/-- State of the shared trigger: the channel itself, the number of
senders suspended on it, the number of receivers suspended on it, and
how many deliveries have completed. -/
structure TriggerSys where
  chan : GoChan Unit
  blockedRaisers : Nat
  waitingListeners : Nat
  observedCount : Nat
deriving DecidableEq, Repr

/-- The trigger at process start: shutdownRequestChannel fresh, nobody
suspended, nothing observed. -/
def triggerInit : TriggerSys :=
  { chan := shutdownRequestChannel, blockedRaisers := 0, waitingListeners := 0,
    observedCount := 0 }

/-- Go channel semantics for the trigger.  A raise hands its value to a
waiting receiver if there is one; otherwise it enters the buffer if
there is room (there never is: the channel is unbuffered), else the
sender suspends.  A receive takes a buffered value if any; otherwise it
completes a rendezvous with a suspended sender if any, else the receiver
suspends. -/
def trigStep (st : TriggerSys) : TrigOp → TriggerSys
  | .raise =>
    if 0 < st.waitingListeners then
      { st with waitingListeners := st.waitingListeners - 1,
                observedCount := st.observedCount + 1 }
    else
      match st.chan.trySend () with
      | (true, ch) => { st with chan := ch }
      | (false, _) => { st with blockedRaisers := st.blockedRaisers + 1 }
  | .receive =>
    match st.chan.tryRecv with
    | (some _, ch) => { st with chan := ch, observedCount := st.observedCount + 1 }
    | (none, _) =>
      if 0 < st.blockedRaisers then
        { st with blockedRaisers := st.blockedRaisers - 1,
                  observedCount := st.observedCount + 1 }
      else
        { st with waitingListeners := st.waitingListeners + 1 }

/-- Run the trigger from process start over a sequence of operations. -/
def trigRun (ops : List TrigOp) : TriggerSys := ops.foldl trigStep triggerInit

/-- Modelled from the spec: the programmatic request-shutdown operation.
Only the channel is defined in src/utils/signal.go; the operation that
raises it lives in callers outside this file.  Per the spec it takes no
parameters, returns nothing, and is a send on shutdownRequestChannel. -/
def requestShutdown (st : TriggerSys) : TriggerSys := trigStep st TrigOp.raise

theorem trigStep_buffer (st : TriggerSys) (op : TrigOp)
    (h : st.chan.buffer = [] ∧ st.chan.capacity = 0 ∧ st.chan.closed = false) :
    (trigStep st op).chan.buffer = [] ∧ (trigStep st op).chan.capacity = 0 ∧
      (trigStep st op).chan.closed = false := by
  obtain ⟨hb, hc, hcl⟩ := h
  cases op with
  | raise =>
    unfold trigStep
    by_cases hw : 0 < st.waitingListeners
    · simp [hw, hb, hc, hcl]
    · have hsend : st.chan.trySend () = (false, st.chan) := by
        unfold GoChan.trySend
        rw [hb, hc]
        simp
      simp [hw, hsend, hb, hc, hcl]
  | receive =>
    unfold trigStep
    have hrecv : st.chan.tryRecv = (none, st.chan) := by
      unfold GoChan.tryRecv
      rw [hb, hcl]
      simp
    by_cases hr : 0 < st.blockedRaisers
    · simp [hrecv, hr, hb, hc, hcl]
    · simp [hrecv, hr, hb, hc, hcl]

theorem trigRun_buffer (ops : List TrigOp) :
    (trigRun ops).chan.buffer = [] ∧ (trigRun ops).chan.capacity = 0 ∧
      (trigRun ops).chan.closed = false := by
  have main : ∀ (l : List TrigOp) (st : TriggerSys),
      st.chan.buffer = [] ∧ st.chan.capacity = 0 ∧ st.chan.closed = false →
      (l.foldl trigStep st).chan.buffer = [] ∧ (l.foldl trigStep st).chan.capacity = 0 ∧
        (l.foldl trigStep st).chan.closed = false := by
    intro l
    induction l with
    | nil => intro st h; exact h
    | cons op l ih =>
      intro st h
      simp only [List.foldl_cons]
      exact ih _ (trigStep_buffer st op h)
  exact main ops triggerInit ⟨rfl, rfl, rfl⟩

/- ### Both listeners running together -/

/-- Combined state when both variants are started: the shared signal
subscription set both pass to signal.Notify, the channel-based listener
and the feed listener. -/
structure DualSys where
  signals : List OsSignal
  chanListener : ListenerState
  feedListener : FeedListenerState
deriving DecidableEq, Repr

/-- Both listeners just started, with the default subscription set. -/
def dualInit : DualSys :=
  { signals := interruptSignals,
    chanListener := InterruptListener,
    feedListener := StartInterrupteListener }

/-- Modelled from the spec: the per-platform override of the signal set
happens during package init, before any listener starts: it only changes
the initial state. -/
def dualInitWith (sigs : List OsSignal) : DualSys :=
  { dualInit with signals := sigs }

/-- An occurrence visible to the combined system.  An OS signal is
delivered by the os/signal package to the notify channel of every
registered listener, so both listeners receive it.  A send on the shared
shutdownRequestChannel is received by exactly one of the two listeners;
the Boolean records which one the runtime picked (true: the
channel-based listener). -/
inductive DualEvent where
  | osSignal (sig : OsSignal)
  | shutdownRaise (toChanListener : Bool)
  | subscribeFeed (id : Nat)
deriving DecidableEq, Repr

/-- One step of the combined system. -/
def dualStep (st : DualSys) : DualEvent → DualSys
  | .osSignal sig =>
    { st with
      chanListener := (interruptListenerStep st.chanListener (Event.osSignal sig)).1,
      feedListener :=
        (startInterrupteListenerStep st.feedListener (FeedAction.event (Event.osSignal sig))).1 }
  | .shutdownRaise true =>
    { st with chanListener := (interruptListenerStep st.chanListener Event.shutdownRequest).1 }
  | .shutdownRaise false =>
    { st with feedListener :=
        (startInterrupteListenerStep st.feedListener (FeedAction.event Event.shutdownRequest)).1 }
  | .subscribeFeed id =>
    { st with feedListener :=
        (startInterrupteListenerStep st.feedListener (FeedAction.subscribe id)).1 }

/-- Run the combined system from a state. -/
def dualRunFrom (st : DualSys) (evs : List DualEvent) : DualSys :=
  evs.foldl dualStep st

/-- Run the combined system from both listeners just started. -/
def dualRun (evs : List DualEvent) : DualSys := dualRunFrom dualInit evs

/-- The events the channel-based listener receives out of a combined
sequence: every OS signal, plus the shutdown raises routed to it. -/
def chanEvents (evs : List DualEvent) : List Event :=
  evs.filterMap (fun ev => match ev with
    | .osSignal sig => some (Event.osSignal sig)
    | .shutdownRaise true => some Event.shutdownRequest
    | _ => none)

/-- The actions the feed listener receives out of a combined sequence:
every OS signal, the shutdown raises routed to it, and the feed
subscriptions. -/
def feedActions (evs : List DualEvent) : List FeedAction :=
  evs.filterMap (fun ev => match ev with
    | .osSignal sig => some (FeedAction.event (Event.osSignal sig))
    | .shutdownRaise true => none
    | .shutdownRaise false => some (FeedAction.event Event.shutdownRequest)
    | .subscribeFeed id => some (FeedAction.subscribe id))

theorem dualRunFrom_proj (evs : List DualEvent) (st : DualSys) :
    (dualRunFrom st evs).chanListener =
        interruptListenerRun st.chanListener (chanEvents evs) ∧
      (dualRunFrom st evs).feedListener = feedRunFrom st.feedListener (feedActions evs) ∧
      (dualRunFrom st evs).signals = st.signals := by
  induction evs generalizing st with
  | nil => exact ⟨rfl, rfl, rfl⟩
  | cons ev evs ih =>
    cases ev with
    | osSignal sig =>
      obtain ⟨h1, h2, h3⟩ := ih (dualStep st (DualEvent.osSignal sig))
      exact ⟨h1, h2, h3⟩
    | shutdownRaise b =>
      cases b with
      | true =>
        obtain ⟨h1, h2, h3⟩ := ih (dualStep st (DualEvent.shutdownRaise true))
        exact ⟨h1, h2, h3⟩
      | false =>
        obtain ⟨h1, h2, h3⟩ := ih (dualStep st (DualEvent.shutdownRaise false))
        exact ⟨h1, h2, h3⟩
    | subscribeFeed id =>
      obtain ⟨h1, h2, h3⟩ := ih (dualStep st (DualEvent.subscribeFeed id))
      exact ⟨h1, h2, h3⟩

theorem interruptRequested_empty (ch : GoChan Unit) (hb : ch.buffer = []) :
    InterruptRequested ch = (ch.closed, ch) := by
  unfold InterruptRequested GoChan.tryRecv
  rw [hb]
  cases hcl : ch.closed <;> simp

/- ### Claim theorems -/

/-- C1: for every sequence of events received by the channel-based
listener started by InterruptListener, the handle channel starts open,
is closed by the first event, and stays closed ever after (the trace of
its closed flag is false followed by all true); the open-to-closed
transition happens exactly once; and a waiter's receive on the handle
completes exactly when at least one event has occurred. -/
theorem c1_handle_closes_once_on_first_event (es : List Event) :
    closedStates es = false :: List.replicate es.length true ∧
    riseCount (closedStates es) = min es.length 1 ∧
    (handleAfter es).tryRecv.1.isSome = !es.isEmpty := by
  refine ⟨closedStates_eq es, ?_, ?_⟩
  · rw [closedStates_eq es, riseCount_closedTrace]
  · have hb := handleAfter_buffer es
    have hc := handleAfter_closed es
    unfold GoChan.tryRecv
    rw [hb, hc]
    cases es <;> simp

/-- C2: the non-blocking poll InterruptRequested returns true exactly
when the fired (channel-closed) transition has occurred: its result
equals the handle's closed flag, hence it is false before any event and
true after the first event, however many further events occur. -/
theorem c2_poll_iff_fired (es : List Event) :
    (InterruptRequested (handleAfter es)).1 = (handleAfter es).closed ∧
    (InterruptRequested (handleAfter es)).1 = !es.isEmpty := by
  have h := interruptRequested_empty _ (handleAfter_buffer es)
  constructor
  · rw [h]
  · rw [h, handleAfter_closed es]

/-- C10: InterruptRequested is observation-only and monotone: it returns
the handle unchanged (the fired event is never consumed), calling it
again on the returned handle gives the same answer, and once it has
returned true it returns true again after any further events. -/
theorem c10_poll_pure_and_monotone (es extra : List Event) :
    (InterruptRequested (handleAfter es)).2 = handleAfter es ∧
    (InterruptRequested ((InterruptRequested (handleAfter es)).2)).1 =
      (InterruptRequested (handleAfter es)).1 ∧
    ((InterruptRequested (handleAfter es)).1 = true →
      (InterruptRequested (handleAfter (es ++ extra))).1 = true) := by
  have h := interruptRequested_empty _ (handleAfter_buffer es)
  refine ⟨by rw [h], by simp [h], ?_⟩
  intro htrue
  rw [h, handleAfter_closed es] at htrue
  rw [interruptRequested_empty _ (handleAfter_buffer (es ++ extra)),
    handleAfter_closed (es ++ extra)]
  cases es with
  | nil => simp at htrue
  | cons e es => simp

theorem c10_witness :
    (InterruptRequested (handleAfter [Event.shutdownRequest])).2 =
      handleAfter [Event.shutdownRequest] ∧
    (InterruptRequested ((InterruptRequested (handleAfter [Event.shutdownRequest])).2)).1 =
      (InterruptRequested (handleAfter [Event.shutdownRequest])).1 ∧
    ((InterruptRequested (handleAfter [Event.shutdownRequest])).1 = true →
      (InterruptRequested
        (handleAfter ([Event.shutdownRequest] ++ [Event.shutdownRequest]))).1 = true) :=
  c10_poll_pure_and_monotone [Event.shutdownRequest] [Event.shutdownRequest]

/-- C4: the Fired state is absorbing in both variants: once in the
repeat loop, every further event is answered by the repeated log line
and nothing else: the channel listener keeps its phase and its handle
(it is never re-fired), and the feed listener keeps its phase, the feed
and the send counter (nothing further is published); neither loop has an
exit, so the goroutine never returns. -/
theorem c4_fired_is_absorbing (ch : GoChan Unit) (fst : FeedListenerState) (e : Event)
    (h : fst.phase = Phase.loopRepeat) :
    interruptListenerStep { phase := Phase.loopRepeat, handle := ch } e =
      ({ phase := Phase.loopRepeat, handle := ch }, repeatLog e) ∧
    startInterrupteListenerStep fst (FeedAction.event e) = (fst, some (repeatLog e)) := by
  constructor
  · exact step_loopRepeat _ e rfl
  · unfold startInterrupteListenerStep
    rw [h]

theorem c4_witness :
    interruptListenerStep { phase := Phase.loopRepeat, handle := newChan Unit 0 }
        Event.shutdownRequest =
      ({ phase := Phase.loopRepeat, handle := newChan Unit 0 },
        repeatLog Event.shutdownRequest) ∧
    startInterrupteListenerStep
        { phase := Phase.loopRepeat, feed := InterruptFeed, sendCount := 1 }
        (FeedAction.event Event.shutdownRequest) =
      ({ phase := Phase.loopRepeat, feed := InterruptFeed, sendCount := 1 },
        some (repeatLog Event.shutdownRequest)) :=
  c4_fired_is_absorbing (newChan Unit 0)
    { phase := Phase.loopRepeat, feed := InterruptFeed, sendCount := 1 }
    Event.shutdownRequest rfl

theorem subsOf_map_inc (acts : List FeedAction) :
    (subsOf acts 0).map (fun p => (p.1, p.2 + 1)) = subsOf acts 1 := by
  induction acts with
  | nil => rfl
  | cons a acts ih =>
    cases a with
    | subscribe id =>
      show ((id, 0) :: subsOf acts 0).map (fun p => (p.1, p.2 + 1)) = (id, 1) :: subsOf acts 1
      rw [List.map_cons, ih]
    | event e =>
      show (subsOf acts 0).map (fun p => (p.1, p.2 + 1)) = subsOf acts 1
      exact ih

theorem deliveredTo_subsOf (acts : List FeedAction) (c id : Nat) :
    Feed.deliveredTo { subs := subsOf acts c } id = c * subCount acts id := by
  induction acts with
  | nil => simp [Feed.deliveredTo, subsOf, subCount]
  | cons a acts ih =>
    cases a with
    | subscribe i =>
      show Feed.deliveredTo { subs := (i, c) :: subsOf acts c } id =
        c * subCount (FeedAction.subscribe i :: acts) id
      have hcnt : subCount (FeedAction.subscribe i :: acts) id =
          subCount acts id + (if (i == id) = true then 1 else 0) := by
        unfold subCount
        rw [List.countP_cons]
      rw [hcnt]
      unfold Feed.deliveredTo at ih ⊢
      rw [List.filter_cons]
      by_cases hi : (i == id) = true
      · simp only [hi, if_pos, List.map_cons, List.sum_cons]
        rw [ih]
        ring
      · simp only [hi, if_neg, Bool.false_eq_true, not_false_iff, if_false]
        rw [ih]
        simp [hi]
    | event e =>
      show Feed.deliveredTo { subs := subsOf acts c } id =
        c * subCount (FeedAction.event e :: acts) id
      have hcnt : subCount (FeedAction.event e :: acts) id = subCount acts id := by
        unfold subCount
        rw [List.countP_cons]
        simp
      rw [hcnt, ih]

/-- C3: the broadcast-feed variant publishes exactly once, on the first
event: an event-free action prefix publishes nothing, and on any
sequence made of an event-free prefix, a first event and an arbitrary
suffix, exactly one Send has run at the end; every subscriber receives
one delivery per registration it made before the publish and nothing for
registrations after it (no replay). -/
theorem c3_feed_publishes_once (pre post : List FeedAction) (e : Event) (id : Nat)
    (hpre : eventCount pre = 0) :
    (feedRun pre).sendCount = 0 ∧
    (feedRun (pre ++ FeedAction.event e :: post)).sendCount = 1 ∧
    (feedRun (pre ++ FeedAction.event e :: post)).feed.deliveredTo id = subCount pre id := by
  have h0 : feedRunFrom StartInterrupteListener pre =
      { phase := Phase.waitingFirst, feed := { subs := subsOf pre 0 }, sendCount := 0 } := by
    have h := feedRunFrom_no_events pre Phase.waitingFirst [] 0 hpre
    rw [List.nil_append] at h
    exact h
  have hsend : Feed.send { subs := subsOf pre 0 } = { subs := subsOf pre 1 } := by
    unfold Feed.send
    rw [subsOf_map_inc pre]
  have hstep : (startInterrupteListenerStep
      { phase := Phase.waitingFirst, feed := { subs := subsOf pre 0 }, sendCount := 0 }
      (FeedAction.event e)).1 =
      { phase := Phase.loopRepeat, feed := { subs := subsOf pre 1 }, sendCount := 1 } := by
    rw [← hsend]
    rfl
  have hfull : feedRun (pre ++ FeedAction.event e :: post) =
      { phase := Phase.loopRepeat, feed := { subs := subsOf pre 1 ++ subsOf post 0 },
        sendCount := 1 } := by
    unfold feedRun
    rw [feedRunFrom_append, h0, feedRunFrom_cons, hstep, feedRunFrom_loopRepeat]
  refine ⟨?_, ?_, ?_⟩
  · show (feedRunFrom StartInterrupteListener pre).sendCount = 0
    rw [h0]
  · rw [hfull]
  · rw [hfull]
    show Feed.deliveredTo { subs := subsOf pre 1 ++ subsOf post 0 } id = subCount pre id
    rw [deliveredTo_append, deliveredTo_subsOf, deliveredTo_subsOf]
    simp

theorem c3_witness :
    (feedRun [FeedAction.subscribe 0]).sendCount = 0 ∧
    (feedRun ([FeedAction.subscribe 0] ++
      FeedAction.event Event.shutdownRequest :: [FeedAction.subscribe 1])).sendCount = 1 ∧
    (feedRun ([FeedAction.subscribe 0] ++
      FeedAction.event Event.shutdownRequest :: [FeedAction.subscribe 1])).feed.deliveredTo 0 =
      subCount [FeedAction.subscribe 0] 0 :=
  c3_feed_publishes_once [FeedAction.subscribe 0] [FeedAction.subscribe 1]
    Event.shutdownRequest 0 (by decide)

/-- C5: the shared shutdown trigger retains at most one pending raise (in
fact none at all: shutdownRequestChannel is unbuffered, so its buffer is
empty after every sequence of raise/receive operations, and a raise only
completes together with an observation); two raises in quick succession
with no listener present queue nothing as distinct pending events: both
senders merely suspend, and nothing has been observed. -/
theorem c5_trigger_single_slot (ops : List TrigOp) :
    shutdownRequestChannel.capacity = 0 ∧
    (trigRun ops).chan.buffer.length = 0 ∧
    (trigRun ops).chan.buffer.length ≤ 1 ∧
    (trigRun [TrigOp.raise, TrigOp.raise]).chan.buffer.length = 0 ∧
    (trigRun [TrigOp.raise, TrigOp.raise]).observedCount = 0 ∧
    (trigRun [TrigOp.raise, TrigOp.raise]).blockedRaisers = 2 := by
  obtain ⟨hb, -, -⟩ := trigRun_buffer ops
  refine ⟨rfl, ?_, ?_, by decide, by decide, by decide⟩
  · rw [hb]
    rfl
  · rw [hb]
    decide

/-- C7: the request-shutdown operation takes nothing but the shared
trigger state and returns nothing but the new state; whenever at least
one wait is pending on the trigger it wakes exactly one of them: the
number of waiting listeners drops by exactly one, exactly one more
delivery is observed, and the channel and the suspended raisers are
untouched. -/
theorem c7_requestShutdown_wakes_exactly_one (st : TriggerSys) (h : 0 < st.waitingListeners) :
    (requestShutdown st).waitingListeners = st.waitingListeners - 1 ∧
    (requestShutdown st).observedCount = st.observedCount + 1 ∧
    (requestShutdown st).blockedRaisers = st.blockedRaisers ∧
    (requestShutdown st).chan = st.chan := by
  unfold requestShutdown trigStep
  simp [h]

/-- A trigger state with exactly one listener waiting, used as a
concrete input below. -/
def trigOneWaiting : TriggerSys :=
  { chan := shutdownRequestChannel, blockedRaisers := 0, waitingListeners := 1,
    observedCount := 0 }

theorem c7_witness :
    (requestShutdown trigOneWaiting).waitingListeners = trigOneWaiting.waitingListeners - 1 ∧
    (requestShutdown trigOneWaiting).observedCount = trigOneWaiting.observedCount + 1 ∧
    (requestShutdown trigOneWaiting).blockedRaisers = trigOneWaiting.blockedRaisers ∧
    (requestShutdown trigOneWaiting).chan = trigOneWaiting.chan :=
  c7_requestShutdown_wakes_exactly_one trigOneWaiting (by decide)

/-- C6 counterexample: with both listeners just started, one shutdown
request is raised and the runtime hands it to the channel-based
listener: that listener fires, while the feed listener is still before
its first select and has published nothing.  So a shutdown-request
occurrence is not received by both listeners: the shared channel is
competitive, not broadcast, contradicting the claim that both listeners
receive every occurrence of every event. -/
theorem c6_counterexample :
    (dualRun [DualEvent.shutdownRaise true]).chanListener.handle.closed = true ∧
    (dualRun [DualEvent.shutdownRaise true]).feedListener.phase = Phase.waitingFirst ∧
    (dualRun [DualEvent.shutdownRaise true]).feedListener.sendCount = 0 := by
  exact ⟨rfl, rfl, rfl⟩

def isSignalEvent : Event → Bool
  | .osSignal _ => true
  | _ => false

def isShutdownEvent : Event → Bool
  | .shutdownRequest => true
  | _ => false

def isSignalDual : DualEvent → Bool
  | .osSignal _ => true
  | _ => false

def isRaiseDual : DualEvent → Bool
  | .shutdownRaise _ => true
  | _ => false

def isSignalAction : FeedAction → Bool
  | .event (Event.osSignal _) => true
  | _ => false

def isShutdownAction : FeedAction → Bool
  | .event Event.shutdownRequest => true
  | _ => false

/-- C6 amended: the two listeners share the signal subscription set and
the shutdown-request trigger, and run independently: the combined run
projects onto each listener running its own first-fire/repeat logic on
exactly the events it receives, so neither suppresses the other.  Every
OS signal occurrence is delivered to both listeners (each has its own
notify channel registered with the signal package), but each
shutdown-request raise is received by exactly one of the two listeners,
whichever the runtime picks: for the shared channel this is competition,
not fan-out. -/
theorem c6_signals_fan_out_trigger_competes (evs : List DualEvent) :
    (dualRun evs).chanListener = interruptListenerRun InterruptListener (chanEvents evs) ∧
    (dualRun evs).feedListener = feedRunFrom StartInterrupteListener (feedActions evs) ∧
    (chanEvents evs).countP isSignalEvent = evs.countP isSignalDual ∧
    (feedActions evs).countP isSignalAction = evs.countP isSignalDual ∧
    (chanEvents evs).countP isShutdownEvent + (feedActions evs).countP isShutdownAction =
      evs.countP isRaiseDual := by
  obtain ⟨h1, h2, -⟩ := dualRunFrom_proj evs dualInit
  refine ⟨h1, h2, ?_, ?_, ?_⟩ <;> clear h1 h2 <;>
    induction evs with
    | nil => rfl
    | cons ev evs ih =>
      cases ev with
      | osSignal sig =>
        simp only [chanEvents, feedActions, List.filterMap_cons, List.countP_cons] at ih ⊢
        simp [isSignalEvent, isSignalDual, isSignalAction, isShutdownEvent, isShutdownAction,
          isRaiseDual, ih]
      | shutdownRaise b =>
        cases b <;>
          simp only [chanEvents, feedActions, List.filterMap_cons, List.countP_cons] at ih ⊢ <;>
          simp [isSignalEvent, isSignalDual, isSignalAction, isShutdownEvent, isShutdownAction,
            isRaiseDual, ih] <;>
          omega
      | subscribeFeed id =>
        simp only [chanEvents, feedActions, List.filterMap_cons, List.countP_cons] at ih ⊢
        simp [isSignalEvent, isSignalDual, isSignalAction, isShutdownEvent, isShutdownAction,
          isRaiseDual, ih]

/-- C8: the signal subscription set defaults to the single platform
interrupt signal; the per-platform override only changes the initial
state, before any listener runs; and once both listeners are started no
step of the system modifies the set. -/
theorem c8_signal_set_immutable (st : DualSys) (ev : DualEvent) (sigs : List OsSignal)
    (evs : List DualEvent) :
    interruptSignals = [OsSignal.interrupt] ∧
    dualInit.signals = interruptSignals ∧
    (dualInitWith sigs).signals = sigs ∧
    (dualStep st ev).signals = st.signals ∧
    (dualRunFrom (dualInitWith sigs) evs).signals = sigs := by
  refine ⟨rfl, rfl, rfl, ?_, ?_⟩
  · cases ev with
    | osSignal sig => rfl
    | shutdownRaise b => cases b <;> rfl
    | subscribeFeed id => rfl
  · exact (dualRunFrom_proj evs (dualInitWith sigs)).2.2

theorem deliverAll_cap1_full {α : Type} (v : α) (vs : List α) :
    deliverAll { capacity := 1, buffer := [v], closed := false } vs =
      { capacity := 1, buffer := [v], closed := false } := by
  induction vs with
  | nil => rfl
  | cons w vs ih =>
    unfold deliverAll at ih ⊢
    simp only [List.foldl_cons]
    have h : (GoChan.trySend { capacity := 1, buffer := [v], closed := false } w).2 =
        { capacity := 1, buffer := [v], closed := false } := by
      unfold GoChan.trySend
      simp
    rw [h, ih]

theorem deliverAll_cap0 {α : Type} (vs : List α) :
    deliverAll { capacity := 0, buffer := ([] : List α), closed := false } vs =
      { capacity := 0, buffer := [], closed := false } := by
  induction vs with
  | nil => rfl
  | cons w vs ih =>
    unfold deliverAll at ih ⊢
    simp only [List.foldl_cons]
    have h : (GoChan.trySend { capacity := 0, buffer := ([] : List α), closed := false } w).2 =
        { capacity := 0, buffer := [], closed := false } := by
      unfold GoChan.trySend
      simp
    rw [h, ih]

/-- C9: each listener's notify channel is created with capacity exactly
one, while the shared shutdown channel is unbuffered (capacity zero):
while a listener is away from its receive, a burst of non-blocking
signal deliveries retains exactly the first signal (so at most one), and
that retained signal is what the next receive observes; the same burst
of raises on the unbuffered shutdown channel retains nothing. -/
theorem c9_notify_buffer_single_slot (sigs : List OsSignal) (us : List Unit) :
    newInterruptChannel.capacity = 1 ∧
    shutdownRequestChannel.capacity = 0 ∧
    (deliverAll newInterruptChannel sigs).buffer = sigs.take 1 ∧
    (deliverAll newInterruptChannel sigs).buffer.length ≤ 1 ∧
    (deliverAll newInterruptChannel sigs).tryRecv.1 = sigs.head?.map some ∧
    (deliverAll shutdownRequestChannel us).buffer = [] := by
  have hbuf : (deliverAll newInterruptChannel sigs).buffer = sigs.take 1 ∧
      (deliverAll newInterruptChannel sigs).tryRecv.1 = sigs.head?.map some := by
    cases sigs with
    | nil => exact ⟨rfl, rfl⟩
    | cons s rest =>
      have hfirst : deliverAll newInterruptChannel (s :: rest) =
          deliverAll { capacity := 1, buffer := [s], closed := false } rest := rfl
      rw [hfirst, deliverAll_cap1_full s rest]
      exact ⟨rfl, rfl⟩
  refine ⟨rfl, rfl, hbuf.1, ?_, hbuf.2, ?_⟩
  · rw [hbuf.1]
    cases sigs <;> simp
  · exact congrArg GoChan.buffer (deliverAll_cap0 us)

end SignalSpec
